import Mathlib

/-!
Shallow embedding of the endurance-metrics data pipeline
(`src/endurance_metrics/{data_loader,weekly_stats,yearly_stats,strava_client}.py`)
and proofs about it.

Modelling conventions:
* Timestamps are civil datetimes `(year, month, day, second-of-day)`; ordering is
  via the day count since 0001-01-01 (proleptic Gregorian; that day is a Monday,
  so a day index `n` falls on a Monday iff `n % 7 = 0`).
* `pandas` float columns are modelled as `ℚ` (exact arithmetic); the special float
  values produced by `pct_change` are modelled by the inductive `FV` below.
* A missing value (`None` key lookup / `NaT` / `NaN`) is modelled with `Option`.
* The week-label strings produced with `strftime` are modelled by the inductive
  `WLabel`, one constructor per format string occurring in the code.  This is a
  faithful (injective) encoding of string equality: `"%Y-W%W"` labels consist of
  digits, a dash and a `W` only, while the gap-fill labels of
  `calculate_weekly_stats` additionally carry a ` (%b %d - %b %d)` suffix
  containing a parenthesis, so labels of different constructors are never equal
  as strings, and within one format the (zero-padded) components are recoverable
  from the string, so equal strings mean equal components.
-/

namespace EM

/-- Gregorian leap-year test. -/
def isLeap (y : Nat) : Bool :=
  (y % 4 == 0 && y % 100 != 0) || y % 400 == 0

/-- Number of days in a month (1..12) of year `y`. -/
def daysInMonth (y m : Nat) : Nat :=
  if m = 2 then (if isLeap y then 29 else 28)
  else if m = 4 ∨ m = 6 ∨ m = 9 ∨ m = 11 then 30
  else 31

/-- Cumulative days before month `m` (1-based) in a non-leap year. -/
def cumDays (m : Nat) : Nat :=
  [0, 0, 31, 59, 90, 120, 151, 181, 212, 243, 273, 304, 334].getD m 0

/-- Day of year, 1-based (Jan 1 is 1). -/
def dayOfYear (y m d : Nat) : Nat :=
  cumDays m + (if 2 < m ∧ isLeap y then 1 else 0) + d

/-- Day index of a civil date: days since 0001-01-01 (which is index 0 and a
Monday in the proleptic Gregorian calendar). -/
def daysFromCivil (y m d : Nat) : Nat :=
  365 * (y - 1) + (y - 1) / 4 - (y - 1) / 100 + (y - 1) / 400 + (dayOfYear y m d - 1)

/-- Monday-based day of week (0 = Monday) of a day index. -/
def dowOfDays (n : Nat) : Nat := n % 7

/-- Civil date of a day index (inverse of `daysFromCivil`), via the standard
era-based closed formula; `n + 306` is the number of days since 0000-03-01. -/
def civilFromDays (n : Nat) : Nat × Nat × Nat :=
  let z := n + 306
  let era := z / 146097
  let doe := z % 146097
  let yoe := (doe - doe / 1460 + doe / 36524 - doe / 146096) / 365
  let y := yoe + era * 400
  let doy := doe - (365 * yoe + yoe / 4 - yoe / 100)
  let mp := (5 * doy + 2) / 153
  let d := doy - (153 * mp + 2) / 5 + 1
  let m := if mp < 10 then mp + 3 else mp - 9
  (if m ≤ 2 then y + 1 else y, m, d)

/-- Week-of-year number in the sense of the C `strftime` directive `%W`
(Monday as first day of the week; days before the first Monday of the year are
week 0).  This is what `normalize_activities` uses for the `year_week` column
via `dt.strftime("%Y-W%W")`. -/
def weekNumW (y m d : Nat) : Nat :=
  (dayOfYear y m d - 1 + 7 - dowOfDays (daysFromCivil y m d)) / 7

/-- ISO day of week, 1 = Monday .. 7 = Sunday. -/
def isoDow (y m d : Nat) : Nat := dowOfDays (daysFromCivil y m d) + 1

/-- Whether an ISO year has 53 weeks (Jan 1 is a Thursday, or a Wednesday in a
leap year). -/
def isoLongYear (y : Nat) : Bool :=
  dowOfDays (daysFromCivil y 1 1) == 3 || (isLeap y && dowOfDays (daysFromCivil y 1 1) == 2)

/-- ISO-8601 week number (the `strftime` directive `%V`), used by the gap-fill
labels in `calculate_weekly_stats` via `monday.strftime("%Y-W%V")`. -/
def isoWeekV (y m d : Nat) : Nat :=
  let w := (dayOfYear y m d - isoDow y m d + 10) / 7
  if w = 0 then (if isoLongYear (y - 1) then 53 else 52)
  else if w = 53 ∧ ¬ isoLongYear y then 1
  else w

/-- Model of the week-label strings.  `norm y w` stands for the string
`"%Y-W%W"` (as produced by `normalize_activities` line 52) and
`range y v m1 d1 m2 d2` stands for
`"%Y-W%V (%b %d - %b %d)"` (as produced by `calculate_weekly_stats`
lines 59-63, where `(m1, d1)` is the Monday and `(m2, d2)` the Sunday). -/
inductive WLabel where
  | norm (y w : Nat)
  | range (y v m1 d1 m2 d2 : Nat)
deriving DecidableEq

/-- Civil datetime: the value a successful `pd.to_datetime` produces. -/
structure DT where
  y : Nat
  m : Nat
  d : Nat
  sec : Nat
deriving DecidableEq

/-- Linear sort key of a datetime (seconds since 0001-01-01 00:00:00);
two valid civil datetimes compare chronologically iff their keys do. -/
def DT.key (t : DT) : Nat := daysFromCivil t.y t.m t.d * 86400 + t.sec

/-- Label `strftime("%Y-W%W")` of a datetime (the `year_week` column). -/
def normYearWeek (t : DT) : WLabel := .norm t.y (weekNumW t.y t.m t.d)

/-- Gap-fill label of a Monday given by its day index:
`monday.strftime("%Y-W%V") + " (" + monday.strftime("%b %d") + " - " +
sunday.strftime("%b %d") + ")"` from `calculate_weekly_stats` lines 58-63. -/
def rangeLabel (monday : Nat) : WLabel :=
  match civilFromDays monday, civilFromDays (monday + 6) with
  | (y, m1, d1), (_, m2, d2) => .range y (isoWeekV y m1 d1) m1 d1 m2 d2

/-- Value found under a date key of a raw activity dict: JSON `null`, a string
that `pd.to_datetime` cannot parse, or a parseable timestamp string whose
parsed value is `t`. -/
inductive RawDateVal where
  | nullv
  | unparsable
  | ts (t : DT)
deriving DecidableEq

/-- Raw Strava activity dict, with `none` for an absent key. -/
structure RawActivity where
  id : Option Nat := none
  name : Option String := none
  start_date_local : Option RawDateVal := none
  start_date : Option RawDateVal := none
  type : Option String := none
  distance : Option ℚ := none
  moving_time : Option ℚ := none
  total_elevation_gain : Option ℚ := none
  average_heartrate : Option ℚ := none
  suffer_score : Option ℚ := none
  average_watts : Option ℚ := none
deriving DecidableEq

/-- Row of the normalized activity table.  The last field `week_start`
backs a `"week_start"` column that `normalize_activities` does NOT create
(its value is only meaningful when `"week_start"` is listed in the
enclosing table's columns; see `Table`). -/
structure Activity where
  activity_id : Option Nat
  name : String
  datetime : Option DT
  date : Option (Nat × Nat × Nat)
  sport : String
  distance_km : ℚ
  duration_min : ℚ
  elevation_m : ℚ
  avg_hr : Option ℚ
  suffer_score : Option ℚ
  power : Option ℚ
  year : Option Nat
  iso_week : Option Nat
  year_week : Option WLabel
  month : Option (Nat × Nat)
  week_start : Nat := 0
deriving DecidableEq

/-- DataFrame of activities: the list of column names actually present,
plus the typed rows.  A row field is meaningful only when the matching
column name is in `cols` (pandas raises `KeyError` for the others, which
the embedded operations model explicitly). -/
structure Table where
  cols : List String
  rows : List Activity
deriving DecidableEq

/-- Columns of the DataFrame built by `normalize_activities` (dict insertion
order of lines 31-44, then the four derived columns of lines 50-53). -/
def normalizeCols : List String :=
  ["activity_id", "name", "datetime", "date", "sport", "distance_km",
   "duration_min", "elevation_m", "avg_hr", "suffer_score", "power",
   "year", "iso_week", "year_week", "month"]

/-- Left-to-right effectful map over a list, stopping at the first error;
this is how the per-record loop of `normalize_activities` raises. -/
def exMap (f : RawActivity → Except String Activity) :
    List RawActivity → Except String (List Activity)
  | [] => .ok []
  | a :: l =>
    match f a with
    | .error e => .error e
    | .ok b =>
      match exMap f l with
      | .error e => .error e
      | .ok bs => .ok (b :: bs)

/-- The date value `activity.get("start_date_local", activity.get("start_date"))`
selects: the value under `start_date_local` if that key is present (even if its
value is null), else the value under `start_date` (or `None`). -/
def chosenDate (a : RawActivity) : Option RawDateVal :=
  match a.start_date_local with
  | some v => some v
  | none => a.start_date

/-- Behaviour of `pd.to_datetime` on the selected value: `None` and JSON null
give `NaT` (modelled `none`), an unparseable string raises, a parseable string
gives the timestamp. -/
def toDatetime : Option RawDateVal → Except String (Option DT)
  | none => .ok none
  | some .nullv => .ok none
  | some .unparsable => .error "to_datetime: could not parse"
  | some (.ts t) => .ok (some t)

/-- One iteration of the loop in `normalize_activities` (lines 27-45) merged
with the vectorized derived columns (lines 50-53, which are per-row functions
of `datetime`; `strftime`/`.dt` accessors yield a missing value on `NaT`). -/
def toRow (a : RawActivity) : Except String Activity :=
  match toDatetime (chosenDate a) with
  | .error e => .error e
  | .ok dt => .ok
    { activity_id := a.id
      name := a.name.getD "Untitled"
      datetime := dt
      date := dt.map fun t => (t.y, t.m, t.d)
      sport := a.type.getD "Unknown"
      distance_km := a.distance.getD 0 / 1000
      duration_min := a.moving_time.getD 0 / 60
      elevation_m := a.total_elevation_gain.getD 0
      avg_hr := a.average_heartrate
      suffer_score := a.suffer_score
      power := a.average_watts
      year := dt.map (·.y)
      iso_week := dt.map fun t => isoWeekV t.y t.m t.d
      year_week := dt.map normYearWeek
      month := dt.map fun t => (t.y, t.m) }

/-- Sort key used by `sort_values("datetime", ascending=False)`: valid
timestamps in descending key order, `NaT` rows last (`na_position` default). -/
def descKey (r : Activity) : Int :=
  match r.datetime with
  | some t => (t.key : Int)
  | none => -1

/-- Row comparison of the descending sort. -/
def rowDescLE (a b : Activity) : Prop := descKey b ≤ descKey a

instance : DecidableRel rowDescLE := fun _ _ => Int.decLe _ _

instance : IsTotal Activity rowDescLE :=
  ⟨fun a b => le_total (descKey b) (descKey a)⟩

instance : IsTrans Activity rowDescLE :=
  ⟨fun _ _ _ h1 h2 => le_trans h2 h1⟩

/-- Embedding of `normalize_activities` (data_loader.py lines 12-58).
An empty input yields the empty frame `pd.DataFrame()` (no columns); otherwise
each record is transformed (raising aborts the whole batch) and the frame is
sorted descending by `datetime`. -/
def normalize_activities (raw : List RawActivity) : Except String Table :=
  if raw = [] then .ok ⟨[], []⟩
  else
    match exMap toRow raw with
    | .error e => .error e
    | .ok rows => .ok ⟨normalizeCols, List.insertionSort rowDescLE rows⟩

/-- Pandas error surfaced by a column lookup on a frame lacking it. -/
inductive PdError where
  | keyError (missing : List String)
deriving DecidableEq

/-- One row of the `weekly` / `weekly_complete` frames of
`calculate_weekly_stats` (after the rename of lines 33-34 and the merge). -/
structure WeeklyBucket where
  year_week : WLabel
  week_start_date : Nat
  total_distance_km : ℚ
  total_elevation_m : ℚ
  total_duration_min : ℚ
  activity_count : Nat
deriving DecidableEq

/-- Distinct values of a list in first-occurrence order, as
`groupby(..., sort=False)` enumerates group keys. -/
def firstKeysAux : List WLabel → List WLabel → List WLabel
  | [], acc => acc.reverse
  | k :: ks, acc => if k ∈ acc then firstKeysAux ks acc else firstKeysAux ks (k :: acc)

/-- Group keys of `df.groupby("year_week", sort=False)`: the distinct non-null
`year_week` values in first-occurrence order (pandas drops null keys). -/
def groupKeys (rows : List Activity) : List WLabel :=
  firstKeysAux (rows.filterMap (·.year_week)) []

/-- Aggregate of one `year_week` group, per the agg dict of lines 25-31:
sums of `distance_km` / `elevation_m` / `duration_min`, count of
`activity_id`, first `week_start`. -/
structure WGroup where
  label : WLabel
  dist : ℚ
  elev : ℚ
  dur : ℚ
  count : Nat
  ws : Nat
deriving DecidableEq

/-- Rows of one group of `df.groupby("year_week")`. -/
def groupRows (rows : List Activity) (k : WLabel) : List Activity :=
  rows.filter fun r => r.year_week = some k

/-- Aggregation of one group. -/
def groupAgg (rows : List Activity) (k : WLabel) : WGroup :=
  { label := k
    dist := ((groupRows rows k).map (·.distance_km)).sum
    elev := ((groupRows rows k).map (·.elevation_m)).sum
    dur := ((groupRows rows k).map (·.duration_min)).sum
    count := (groupRows rows k).length
    ws := (((groupRows rows k).head?).map (·.week_start)).getD 0 }

/-- The `weekly` frame: one aggregated row per group key. -/
def weeklyAgg (rows : List Activity) : List WGroup :=
  (groupKeys rows).map (groupAgg rows)

/-- Columns the aggregation dict of lines 25-31 reads (pandas raises
`KeyError` listing the ones absent from the frame). -/
def weeklyAggCols : List String :=
  ["distance_km", "elevation_m", "duration_min", "activity_id", "week_start"]

/-- Minimum of a non-empty list of naturals (`Series.min`). -/
def listMin : List Nat → Nat
  | [] => 0
  | x :: xs => xs.foldl Nat.min x

/-- Maximum of a non-empty list of naturals (`Series.max`). -/
def listMax : List Nat → Nat
  | [] => 0
  | x :: xs => xs.foldl Nat.max x

/-- First day index at or after `s` that is a Monday (how an anchored
`W-MON` frequency rolls the start of `pd.date_range` forward). -/
def firstOnOffset (s : Nat) : Nat :=
  if s % 7 = 0 then s else s + (7 - s % 7)

/-- `pd.date_range(start, end, freq="W-MON")`: all Mondays `f, f+7, ...`
up to and including `e`, where `f` is `start` rolled forward to a Monday. -/
def dateRangeWMON (s e : Nat) : List Nat :=
  if firstOnOffset s ≤ e then
    (List.range ((e - firstOnOffset s) / 7 + 1)).map fun i => firstOnOffset s + 7 * i
  else []

/-- One merged row of `weekly_complete` for a Monday of the continuous range:
the gap-fill label and Monday date from `complete_weeks_df`, and the sums of
the `weekly` row with the same `year_week` label if the left join found one,
else the zero fill of lines 80-83. -/
def mergedBucket (weekly : List WGroup) (monday : Nat) : WeeklyBucket :=
  match weekly.find? fun g => g.label = rangeLabel monday with
  | some g =>
    { year_week := rangeLabel monday, week_start_date := monday
      total_distance_km := g.dist, total_elevation_m := g.elev
      total_duration_min := g.dur, activity_count := g.count }
  | none =>
    { year_week := rangeLabel monday, week_start_date := monday
      total_distance_km := 0, total_elevation_m := 0
      total_duration_min := 0, activity_count := 0 }

/-- Chronological comparison of buckets (`sort_values("week_start_date")`). -/
def bucketLE (a b : WeeklyBucket) : Prop := a.week_start_date ≤ b.week_start_date

instance : DecidableRel bucketLE := fun _ _ => Nat.decLe _ _

instance : IsTotal WeeklyBucket bucketLE := ⟨fun _ _ => Nat.le_total _ _⟩

instance : IsTrans WeeklyBucket bucketLE := ⟨fun _ _ _ h1 h2 => Nat.le_trans h1 h2⟩

/-- Embedding of `calculate_weekly_stats` (weekly_stats.py lines 7-88).
An empty frame returns an empty bucket list; a frame missing the group-by
column or aggregated columns raises `KeyError` (notably `"week_start"`,
which `normalize_activities` never creates); otherwise the weekly sums are
left-joined onto the continuous Monday range from the minimum to the maximum
observed `week_start`, gaps zero-filled, sorted chronologically. -/
def calculate_weekly_stats (df : Table) : Except PdError (List WeeklyBucket) :=
  if df.rows = [] then .ok []
  else if "year_week" ∉ df.cols then .error (.keyError ["year_week"])
  else if (weeklyAggCols.filter fun c => c ∉ df.cols) ≠ [] then
    .error (.keyError (weeklyAggCols.filter fun c => c ∉ df.cols))
  else
    let weekly := weeklyAgg df.rows
    let wsList := df.rows.map (·.week_start)
    let mondays := dateRangeWMON (listMin wsList) (listMax wsList)
    .ok (List.insertionSort bucketLE (mondays.map (mergedBucket weekly)))

/-- Trailing window of `rolling(window=w, min_periods=1)` at position `i`:
the last `min(i+1, w)` of the first `i+1` samples. -/
def rollingSlice (xs : List ℚ) (w i : Nat) : List ℚ :=
  (xs.take (i + 1)).drop (i + 1 - w)

/-- Column produced by `.rolling(window=w, min_periods=1).mean()`. -/
def rollingMeanList (w : Nat) (xs : List ℚ) : List ℚ :=
  (List.range xs.length).map fun i =>
    (rollingSlice xs w i).sum / (rollingSlice xs w i).length

/-- Result frame of `add_rolling_averages`: the input buckets plus, for each
window size `w`, the columns `distance_km_{w}w_avg` and `elevation_m_{w}w_avg`. -/
structure RollingResult where
  base : List WeeklyBucket
  distAvg : List (Nat × List ℚ)
  elevAvg : List (Nat × List ℚ)
deriving DecidableEq

/-- Embedding of `add_rolling_averages` (weekly_stats.py lines 91-112). -/
def add_rolling_averages (weekly_df : List WeeklyBucket) (windows : List Nat) :
    RollingResult :=
  { base := weekly_df
    distAvg := windows.map fun w =>
      (w, rollingMeanList w (weekly_df.map (·.total_distance_km)))
    elevAvg := windows.map fun w =>
      (w, rollingMeanList w (weekly_df.map (·.total_elevation_m))) }

/-- One row of the yearly aggregated frame of `calculate_yearly_stats`.
The count column is a float once `pct_change` touches it, so it is kept in ℚ. -/
structure YearRow where
  year : Nat
  total_distance_km : ℚ
  total_elevation_m : ℚ
  total_duration_min : ℚ
  activity_count : ℚ
deriving DecidableEq

/-- IEEE-754 values a `pct_change` column can hold: a finite number, the two
infinities (float division of a nonzero by zero), or `NaN`. -/
inductive FV where
  | num (q : ℚ)
  | inf
  | ninf
  | nan
deriving DecidableEq

/-- Value of `Series.pct_change() * 100` at a position with predecessor:
`(cur - prev) / prev * 100` in float arithmetic, with the zero-previous cases
following IEEE division (`cur/0` is `+inf`, `-inf`, or `NaN` when `cur = 0`). -/
def pctChange100 (prev cur : ℚ) : FV :=
  if prev = 0 then
    if 0 < cur - prev then .inf
    else if cur - prev < 0 then .ninf
    else .nan
  else .num ((cur - prev) / prev * 100)

/-- Whole column `Series.pct_change() * 100`: `NaN` at the first position
(no previous row), `pctChange100` elsewhere. -/
def pctChangeCol (xs : List ℚ) : List FV :=
  (List.range xs.length).map fun i =>
    if i = 0 then .nan else pctChange100 (xs.getD (i - 1) 0) (xs.getD i 0)

/-- Result frame of `calculate_yoy_change`: the yearly rows plus the four
`*_yoy_change` columns. -/
structure YoyResult where
  base : List YearRow
  dist_yoy : List FV
  elev_yoy : List FV
  dur_yoy : List FV
  count_yoy : List FV
deriving DecidableEq

/-- Embedding of `calculate_yoy_change` (yearly_stats.py lines 36-51). -/
def calculate_yoy_change (yearly_df : List YearRow) : YoyResult :=
  { base := yearly_df
    dist_yoy := pctChangeCol (yearly_df.map (·.total_distance_km))
    elev_yoy := pctChangeCol (yearly_df.map (·.total_elevation_m))
    dur_yoy := pctChangeCol (yearly_df.map (·.total_duration_min))
    count_yoy := pctChangeCol (yearly_df.map (·.activity_count)) }

/-- Outcome of one `get_activities(page, per_page)` call as observed by
`fetch_all_activities`: a JSON page, an HTTP 429 (`StravaRateLimitError`),
or another failure (`StravaAPIError`). -/
inductive PageResult where
  | ok (recs : List RawActivity)
  | rateLimit
  | apiError

/-- Errors `fetch_all_activities` can signal in the embedding; `outOfFuel`
marks an unfinished loop (only reachable when the fuel bound is too small,
never under the hypotheses of the theorems below). -/
inductive FetchErr where
  | rateLimit
  | outOfFuel
deriving DecidableEq

/-- The `while True` pagination loop of `fetch_all_activities`
(strava_client.py lines 165-199), starting at `page` with accumulator `acc`:
an empty page or a short page ends the loop returning the accumulated records;
`StravaRateLimitError` is re-raised (the accumulator is discarded);
any other `StravaAPIError` logs a warning and breaks, returning the
accumulated records as a success. -/
def fetchAllLoop (pages : Nat → PageResult) (perPage : Nat) :
    Nat → Nat → List RawActivity → Except FetchErr (List RawActivity)
  | 0, _, _ => .error .outOfFuel
  | fuel + 1, page, acc =>
    match pages page with
    | .rateLimit => .error .rateLimit
    | .apiError => .ok acc
    | .ok recs =>
      if recs = [] then .ok acc
      else if recs.length < perPage then .ok (acc ++ recs)
      else fetchAllLoop pages perPage fuel (page + 1) (acc ++ recs)

/-- Embedding of `fetch_all_activities`: run the loop from page 1 with an
empty accumulator.  `pages` gives the outcome of each page request and
`perPage` is `config.activities_per_page`. -/
def fetch_all_activities (pages : Nat → PageResult) (perPage fuel : Nat) :
    Except FetchErr (List RawActivity) :=
  fetchAllLoop pages perPage fuel 1 []

/-- Errors that can escape the fetch-and-normalize path of
`fetch_activities_from_api`: a re-raised `StravaRateLimitError`, or the
parse error `pd.to_datetime` raises inside `normalize_activities`. -/
inductive LoadErr where
  | rateLimit
  | parse (e : String)
deriving DecidableEq

/-- Embedding of `fetch_activities_from_api` (data_loader.py lines 92-132),
taking the outcome of `fetch_all_activities` as input: an empty fetch warns
and returns an empty frame, otherwise the batch is normalized (a raise
propagates) and the frame returned (the cache save of line 127 is a side
effect on the store, not on the returned value). -/
def fetch_activities_from_api (fetched : Except LoadErr (List RawActivity)) :
    Except LoadErr Table :=
  match fetched with
  | .error e => .error e
  | .ok raws =>
    if raws = [] then .ok ⟨[], []⟩
    else
      match normalize_activities raws with
      | .error e => .error (.parse e)
      | .ok df => if df.rows = [] then .ok ⟨[], []⟩ else .ok df

/-- What `load_activities` does for the caller: return a frame (with
`warned = true` when the rate-limit messages of lines 154-155 were shown
first), halt the script (`st.stop`), or let a non-rate-limit exception
propagate. -/
inductive LoadResult where
  | data (t : Table) (warned : Bool)
  | stopped
  | exn (e : LoadErr)
deriving DecidableEq

/-- Embedding of the `force_refresh = True` branch of `load_activities`
(data_loader.py lines 148-161): fetch; on `StravaRateLimitError` fall back to
the cache when it exists, else `st.stop()`; other exceptions propagate. -/
def load_activities_force (fetched : Except LoadErr (List RawActivity))
    (cache : Option Table) : LoadResult :=
  match fetch_activities_from_api fetched with
  | .ok df => .data df false
  | .error .rateLimit =>
    match cache with
    | some c => .data c true
    | none => .stopped
  | .error e => .exn e

/-- Embedding of `filter_activities` (data_loader.py lines 177-215).
Date bounds compare on the `datetime` column (a `NaT` never satisfies a
comparison); the sport filter applies only when the list is non-empty
(`if sport_types` is false for both `None` and `[]`) and the `sport`
column exists.  A non-empty frame without a `datetime` column yields the
empty `pd.DataFrame()` of line 202. -/
def filter_activities (df : Table) (start_date end_date : Option Nat)
    (sport_types : Option (List String)) : Table :=
  if df.rows = [] then df
  else if "datetime" ∉ df.cols then ⟨[], []⟩
  else
    let f1 := match start_date with
      | none => df.rows
      | some s => df.rows.filter fun r =>
          match r.datetime with
          | some t => s ≤ t.key
          | none => false
    let f2 := match end_date with
      | none => f1
      | some e => f1.filter fun r =>
          match r.datetime with
          | some t => t.key ≤ e
          | none => false
    let f3 := match sport_types with
      | none => f2
      | some l => if l = [] then f2
          else if "sport" ∈ df.cols then f2.filter (fun r => r.sport ∈ l) else f2
    ⟨df.cols, f3⟩

/-- The bucket list `calculate_weekly_stats` produces on the success path
(before the final sort, which the theorems show is the identity here):
one merged bucket per Monday of the continuous range. -/
def weeklyOut (df : Table) : List WeeklyBucket :=
  (dateRangeWMON (listMin (df.rows.map (·.week_start)))
      (listMax (df.rows.map (·.week_start)))).map
    (mergedBucket (weeklyAgg df.rows))

/-- Raw activity dict with no fields at all (in particular neither
`start_date_local` nor `start_date`). -/
def rawNone : RawActivity := {}

/-- Raw activity whose only date field is an unparseable string. -/
def rawUnparsable : RawActivity := { start_date := some .unparsable }

/-- Well-formed raw activity: 1000 m in 60 s with 5 m of climbing on
2024-01-01. -/
def rawGood : RawActivity :=
  { id := some 11
    name := some "morning run"
    start_date := some (.ts ⟨2024, 1, 1, 3600⟩)
    type := some "Run"
    distance := some 1000
    moving_time := some 60
    total_elevation_gain := some 5 }

/-- Raw activity carrying a negative distance, which `normalize_activities`
passes through the meters-to-km division unchecked. -/
def rawNegative : RawActivity :=
  { start_date := some (.ts ⟨2024, 1, 1, 0⟩)
    distance := some (-1000) }

/-- Activity-row builder for concrete tables (all metrics zero). -/
def mkActivity (ws : Nat) (yw : Option WLabel) (sport : String) (dt : Option DT) :
    Activity :=
  { activity_id := none
    name := "a"
    datetime := dt
    date := none
    sport := sport
    distance_km := 0
    duration_min := 0
    elevation_m := 0
    avg_hr := none
    suffer_score := none
    power := none
    year := none
    iso_week := none
    year_week := yw
    month := none
    week_start := ws }

/-- Concrete activity table for the weekly gap-fill witness: two activities
two calendar weeks apart (`707` and `721` are Mondays: both divisible by 7). -/
def c1Df : Table :=
  ⟨normalizeCols ++ ["week_start"],
   [mkActivity 721 (some (.norm 2 44)) "Run" none,
    mkActivity 707 (some (.norm 2 42)) "Ride" none]⟩

/-- Concrete table for the filter witness: one run and one ride. -/
def c10Df : Table :=
  ⟨normalizeCols,
   [mkActivity 0 none "Run" (some ⟨2024, 1, 1, 0⟩),
    mkActivity 0 none "Ride" (some ⟨2024, 1, 2, 0⟩)]⟩

/-- Page outcomes for the pagination witness: page 2 is rate-limited. -/
def c6PagesA : Nat → PageResult :=
  fun i => if i = 2 then .rateLimit else .ok [rawNone]

/-- Page outcomes for the pagination witness: page 2 fails with a
non-rate-limit API error. -/
def c6PagesB : Nat → PageResult :=
  fun i => if i = 2 then .apiError else .ok [rawNone]

/-- Records per page in the pagination witness. -/
def c6Recs : Nat → List RawActivity := fun _ => [rawNone]

/-- Yearly rows for the year-over-year theorems: 100 then 150 of each sum
metric, 10 then 20 activities. -/
def c8Yearly : List YearRow :=
  [⟨2020, 100, 100, 100, 10⟩, ⟨2021, 150, 150, 150, 20⟩]

/-- Yearly rows whose first distance total is zero (previous = 0 case). -/
def c8YearlyZero : List YearRow :=
  [⟨2020, 0, 0, 0, 0⟩, ⟨2021, 100, 100, 100, 10⟩]

/-- Row `normalize_activities` produces for `rawNegative` (the division of the
negative raw distance is kept unevaluated, as the embedding produces it). -/
def c4NegRow : Activity :=
  { activity_id := none
    name := "Untitled"
    datetime := some ⟨2024, 1, 1, 0⟩
    date := some (2024, 1, 1)
    sport := "Unknown"
    distance_km := -1000 / 1000
    duration_min := 0 / 60
    elevation_m := 0
    avg_hr := none
    suffer_score := none
    power := none
    year := some 2024
    iso_week := some 1
    year_week := some (.norm 2024 1)
    month := some (2024, 1)
    week_start := 0 }

/-- Weekly buckets whose distance column is `[10, 0, 0, 0, 20]`. -/
def c9Buckets : List WeeklyBucket :=
  [⟨.norm 2024 1, 0, 10, 0, 0, 1⟩,
   ⟨.norm 2024 2, 7, 0, 0, 0, 0⟩,
   ⟨.norm 2024 3, 14, 0, 0, 0, 0⟩,
   ⟨.norm 2024 4, 21, 0, 0, 0, 0⟩,
   ⟨.norm 2024 5, 28, 20, 0, 0, 2⟩]

theorem exMap_ok_length (f : RawActivity → Except String Activity) :
    ∀ (l : List RawActivity) (rows : List Activity),
      exMap f l = .ok rows → rows.length = l.length := by
  intro l
  induction l with
  | nil => intro rows h; simp only [exMap, Except.ok.injEq] at h; simp [← h]
  | cons a l ih =>
    intro rows h
    simp only [exMap] at h
    cases hf : f a with
    | error e => rw [hf] at h; exact absurd h (by simp)
    | ok b =>
      rw [hf] at h
      cases hm : exMap f l with
      | error e => rw [hm] at h; exact absurd h (by simp)
      | ok bs =>
        rw [hm] at h
        simp only [Except.ok.injEq] at h
        simp [← h, ih bs hm]

theorem exMap_ok_sources (f : RawActivity → Except String Activity) :
    ∀ (l : List RawActivity) (rows : List Activity),
      exMap f l = .ok rows → ∀ b ∈ rows, ∃ a ∈ l, f a = .ok b := by
  intro l
  induction l with
  | nil =>
    intro rows h
    simp only [exMap, Except.ok.injEq] at h
    simp [← h]
  | cons a l ih =>
    intro rows h
    simp only [exMap] at h
    cases hf : f a with
    | error e => rw [hf] at h; exact absurd h (by simp)
    | ok b =>
      rw [hf] at h
      cases hm : exMap f l with
      | error e => rw [hm] at h; exact absurd h (by simp)
      | ok bs =>
        rw [hm] at h
        simp only [Except.ok.injEq] at h
        subst h
        intro x hx
        rcases List.mem_cons.mp hx with hx | hx
        · exact ⟨a, List.mem_cons_self a l, hx ▸ hf⟩
        · rcases ih bs hm x hx with ⟨a2, ha2, hfa2⟩
          exact ⟨a2, List.mem_cons_of_mem a ha2, hfa2⟩

theorem exMap_ok_image (f : RawActivity → Except String Activity) :
    ∀ (l : List RawActivity) (rows : List Activity),
      exMap f l = .ok rows → ∀ a ∈ l, ∃ b ∈ rows, f a = .ok b := by
  intro l
  induction l with
  | nil => intro rows _ a ha; exact absurd ha (List.not_mem_nil a)
  | cons a0 l ih =>
    intro rows h a ha
    simp only [exMap] at h
    cases hf : f a0 with
    | error e => rw [hf] at h; exact absurd h (by simp)
    | ok b =>
      rw [hf] at h
      cases hm : exMap f l with
      | error e => rw [hm] at h; exact absurd h (by simp)
      | ok bs =>
        rw [hm] at h
        simp only [Except.ok.injEq] at h
        subst h
        rcases List.mem_cons.mp ha with rfl | ha
        · exact ⟨b, List.mem_cons_self b bs, hf⟩
        · rcases ih bs hm a ha with ⟨b2, hb2, hfb2⟩
          exact ⟨b2, List.mem_cons_of_mem b hb2, hfb2⟩

theorem exMap_error_of_mem (f : RawActivity → Except String Activity) :
    ∀ (l : List RawActivity) (a : RawActivity), a ∈ l →
      ∀ e, f a = .error e → ∃ e2, exMap f l = .error e2 := by
  intro l
  induction l with
  | nil => intro a ha; exact absurd ha (List.not_mem_nil a)
  | cons a0 l ih =>
    intro a ha e he
    rcases List.mem_cons.mp ha with rfl | ha
    · exact ⟨e, by simp [exMap, he]⟩
    · cases hf : f a0 with
      | error e0 => exact ⟨e0, by simp [exMap, hf]⟩
      | ok b =>
        rcases ih a ha e he with ⟨e2, he2⟩
        exact ⟨e2, by simp [exMap, hf, he2]⟩

theorem toRow_ok_fields (a : RawActivity) (r : Activity) (h : toRow a = .ok r) :
    r.distance_km = a.distance.getD 0 / 1000 ∧
    r.duration_min = a.moving_time.getD 0 / 60 ∧
    r.elevation_m = a.total_elevation_gain.getD 0 := by
  unfold toRow at h
  cases hd : toDatetime (chosenDate a) with
  | error e => rw [hd] at h; exact absurd h (by simp)
  | ok dt =>
    rw [hd] at h
    simp only [Except.ok.injEq] at h
    subst h
    exact ⟨rfl, rfl, rfl⟩

theorem toRow_of_no_date (a : RawActivity) (h : chosenDate a = none) :
    ∃ r, toRow a = .ok r ∧ r.datetime = none := by
  unfold toRow toDatetime
  rw [h]
  exact ⟨_, rfl, rfl⟩

theorem toRow_unparsable_date (a : RawActivity)
    (h : chosenDate a = some RawDateVal.unparsable) :
    toRow a = .error "to_datetime: could not parse" := by
  unfold toRow toDatetime
  rw [h]

theorem normalize_ok_elim (raw : List RawActivity) (h0 : raw ≠ []) (t : Table)
    (h : normalize_activities raw = .ok t) :
    ∃ rows, exMap toRow raw = .ok rows ∧
      t = ⟨normalizeCols, List.insertionSort rowDescLE rows⟩ := by
  unfold normalize_activities at h
  rw [if_neg h0] at h
  cases hm : exMap toRow raw with
  | error e => rw [hm] at h; exact absurd h (by simp)
  | ok rows =>
    rw [hm] at h
    simp only [Except.ok.injEq] at h
    exact ⟨rows, rfl, h.symm⟩

theorem foldl_min_le_init (l : List Nat) : ∀ a : Nat, l.foldl Nat.min a ≤ a := by
  induction l with
  | nil => intro a; simp
  | cons x xs ih =>
    intro a
    exact le_trans (ih (Nat.min a x)) (Nat.min_le_left a x)

theorem foldl_min_le_mem (l : List Nat) :
    ∀ (a x : Nat), x ∈ l → l.foldl Nat.min a ≤ x := by
  induction l with
  | nil => intro a x hx; exact absurd hx (List.not_mem_nil x)
  | cons y ys ih =>
    intro a x hx
    rcases List.mem_cons.mp hx with rfl | hx
    · exact le_trans (foldl_min_le_init ys (Nat.min a x)) (Nat.min_le_right a x)
    · exact ih (Nat.min a y) x hx

theorem foldl_min_mem (l : List Nat) :
    ∀ a : Nat, l.foldl Nat.min a = a ∨ l.foldl Nat.min a ∈ l := by
  induction l with
  | nil => intro a; left; rfl
  | cons y ys ih =>
    intro a
    rcases ih (Nat.min a y) with h | h
    · rw [List.foldl_cons, h]
      rcases Nat.le_total a y with hle | hle
      · left
        unfold Nat.min
        exact min_eq_left hle
      · right
        have hy : Nat.min a y = y := by unfold Nat.min; exact min_eq_right hle
        rw [hy]
        exact List.mem_cons_self y ys
    · right; exact List.mem_cons_of_mem y h

theorem le_foldl_max_init (l : List Nat) : ∀ a : Nat, a ≤ l.foldl Nat.max a := by
  induction l with
  | nil => intro a; simp
  | cons x xs ih =>
    intro a
    exact le_trans (Nat.le_max_left a x) (ih (Nat.max a x))

theorem le_foldl_max_mem (l : List Nat) :
    ∀ (a x : Nat), x ∈ l → x ≤ l.foldl Nat.max a := by
  induction l with
  | nil => intro a x hx; exact absurd hx (List.not_mem_nil x)
  | cons y ys ih =>
    intro a x hx
    rcases List.mem_cons.mp hx with rfl | hx
    · exact le_trans (Nat.le_max_right a x) (le_foldl_max_init ys (Nat.max a x))
    · exact ih (Nat.max a y) x hx

theorem foldl_max_mem (l : List Nat) :
    ∀ a : Nat, l.foldl Nat.max a = a ∨ l.foldl Nat.max a ∈ l := by
  induction l with
  | nil => intro a; left; rfl
  | cons y ys ih =>
    intro a
    rcases ih (Nat.max a y) with h | h
    · rw [List.foldl_cons, h]
      rcases Nat.le_total a y with hle | hle
      · right
        have hy : Nat.max a y = y := by unfold Nat.max; exact max_eq_right hle
        rw [hy]
        exact List.mem_cons_self y ys
      · left
        unfold Nat.max
        exact max_eq_left hle
    · right; exact List.mem_cons_of_mem y h

theorem listMin_le (l : List Nat) (x : Nat) (hx : x ∈ l) : listMin l ≤ x := by
  cases l with
  | nil => exact absurd hx (List.not_mem_nil x)
  | cons w rest =>
    rcases List.mem_cons.mp hx with rfl | hx
    · exact foldl_min_le_init rest x
    · exact foldl_min_le_mem rest w x hx

theorem le_listMax (l : List Nat) (x : Nat) (hx : x ∈ l) : x ≤ listMax l := by
  cases l with
  | nil => exact absurd hx (List.not_mem_nil x)
  | cons w rest =>
    rcases List.mem_cons.mp hx with rfl | hx
    · exact le_foldl_max_init rest x
    · exact le_foldl_max_mem rest w x hx

theorem listMin_mem (l : List Nat) (h : l ≠ []) : listMin l ∈ l := by
  cases l with
  | nil => exact absurd rfl h
  | cons w rest =>
    rcases foldl_min_mem rest w with h2 | h2
    · rw [listMin, h2]; exact List.mem_cons_self w rest
    · exact List.mem_cons_of_mem w h2

theorem listMax_mem (l : List Nat) (h : l ≠ []) : listMax l ∈ l := by
  cases l with
  | nil => exact absurd rfl h
  | cons w rest =>
    rcases foldl_max_mem rest w with h2 | h2
    · rw [listMax, h2]; exact List.mem_cons_self w rest
    · exact List.mem_cons_of_mem w h2

theorem listMin_le_listMax (l : List Nat) (h : l ≠ []) : listMin l ≤ listMax l :=
  le_trans (listMin_le l (listMax l) (listMax_mem l h)) (le_refl _)

theorem firstKeysAux_mem (l : List WLabel) :
    ∀ (acc : List WLabel) (x : WLabel), x ∈ firstKeysAux l acc → x ∈ acc ∨ x ∈ l := by
  induction l with
  | nil =>
    intro acc x hx
    rw [firstKeysAux] at hx
    exact Or.inl (List.mem_reverse.mp hx)
  | cons k ks ih =>
    intro acc x hx
    rw [firstKeysAux] at hx
    by_cases hk : k ∈ acc
    · rw [if_pos hk] at hx
      rcases ih acc x hx with h | h
      · exact Or.inl h
      · exact Or.inr (List.mem_cons_of_mem k h)
    · rw [if_neg hk] at hx
      rcases ih (k :: acc) x hx with h | h
      · rcases List.mem_cons.mp h with rfl | h
        · exact Or.inr (List.mem_cons_self x ks)
        · exact Or.inl h
      · exact Or.inr (List.mem_cons_of_mem k h)

theorem weeklyAgg_label_source (rows : List Activity) (g : WGroup)
    (hg : g ∈ weeklyAgg rows) : ∃ r ∈ rows, r.year_week = some g.label := by
  rcases List.mem_map.mp hg with ⟨k, hk, rfl⟩
  rcases firstKeysAux_mem _ [] k hk with h | h
  · exact absurd h (List.not_mem_nil k)
  · rcases List.mem_filterMap.mp h with ⟨r, hr, hry⟩
    exact ⟨r, hr, hry⟩

theorem rangeLabel_shape (mon : Nat) :
    ∃ y v m1 d1 m2 d2, rangeLabel mon = WLabel.range y v m1 d1 m2 d2 := by
  unfold rangeLabel
  rcases civilFromDays mon with ⟨y, m1, d1⟩
  rcases civilFromDays (mon + 6) with ⟨y2, m2, d2⟩
  exact ⟨_, _, _, _, _, _, rfl⟩

theorem weeklyAgg_find_range_none (rows : List Activity)
    (h4 : ∀ r ∈ rows, ∀ lb, r.year_week = some lb → ∃ y w, lb = WLabel.norm y w)
    (mon : Nat) :
    (weeklyAgg rows).find? (fun g => g.label = rangeLabel mon) = none := by
  rw [List.find?_eq_none]
  intro g hg
  rcases weeklyAgg_label_source rows g hg with ⟨r, hr, hry⟩
  rcases h4 r hr g.label hry with ⟨y, w, hyw⟩
  rcases rangeLabel_shape mon with ⟨y2, v, m1, d1, m2, d2, hrange⟩
  simp [hyw, hrange]

theorem mergedBucket_week_start (weekly : List WGroup) (mon : Nat) :
    (mergedBucket weekly mon).week_start_date = mon := by
  unfold mergedBucket
  cases weekly.find? (fun g => g.label = rangeLabel mon) <;> rfl

theorem mergedBucket_of_find_none (weekly : List WGroup) (mon : Nat)
    (h : weekly.find? (fun g => g.label = rangeLabel mon) = none) :
    mergedBucket weekly mon =
      { year_week := rangeLabel mon, week_start_date := mon
        total_distance_km := 0, total_elevation_m := 0
        total_duration_min := 0, activity_count := 0 } := by
  unfold mergedBucket
  rw [h]

theorem dateRangeWMON_aligned (s e : Nat) (hs : s % 7 = 0) (hse : s ≤ e) :
    dateRangeWMON s e =
      (List.range ((e - s) / 7 + 1)).map fun i => s + 7 * i := by
  have h1 : firstOnOffset s = s := by unfold firstOnOffset; exact if_pos hs
  unfold dateRangeWMON
  rw [h1, if_pos hse]

theorem fetchAllLoop_run (pages : Nat → PageResult) (perPage : Nat)
    (recs : Nat → List RawActivity) (hpp : 0 < perPage) :
    ∀ (k p fuel : Nat) (acc : List RawActivity),
      (∀ i, p ≤ i → i < p + k → pages i = .ok (recs i) ∧ (recs i).length = perPage) →
      k < fuel →
      fetchAllLoop pages perPage fuel p acc =
        fetchAllLoop pages perPage (fuel - k) (p + k)
          (acc ++ ((List.range k).map fun j => recs (p + j)).flatten) := by
  intro k
  induction k with
  | zero => intro p fuel acc _ _; simp
  | succ k ih =>
    intro p fuel acc h hf
    cases fuel with
    | zero => exact absurd hf (Nat.not_lt_zero _)
    | succ f =>
      have hp : pages p = .ok (recs p) ∧ (recs p).length = perPage :=
        h p (le_refl p) (by omega)
      have hne : recs p ≠ [] := by
        intro hnil
        rw [hnil] at hp
        simp at hp
        omega
      have hnlt : ¬ (recs p).length < perPage := by rw [hp.2]; omega
      rw [show fetchAllLoop pages perPage (f + 1) p acc =
            fetchAllLoop pages perPage f (p + 1) (acc ++ recs p) by
          rw [fetchAllLoop, hp.1]
          simp only [if_neg hne, if_neg hnlt]]
      rw [ih (p + 1) f (acc ++ recs p)
            (fun i h1 h2 => h i (by omega) (by omega)) (by omega)]
      have hfuel2 : f - k = f + 1 - (k + 1) := by omega
      have hpage : p + 1 + k = p + (k + 1) := by omega
      have hlist : acc ++ recs p ++ ((List.range k).map fun j => recs (p + 1 + j)).flatten =
          acc ++ ((List.range (k + 1)).map fun j => recs (p + j)).flatten := by
        rw [List.range_succ_eq_map]
        have hfun : ((fun j => recs (p + j)) ∘ Nat.succ) = fun j => recs (p + 1 + j) := by
          funext j
          simp only [Function.comp_apply]
          congr 1
          omega
        simp only [List.map_cons, List.map_map, List.flatten_cons, hfun, Nat.add_zero,
          List.append_assoc]
      rw [hfuel2, hpage, hlist]

theorem fetchAllLoop_rateLimit (pages : Nat → PageResult) (perPage f page : Nat)
    (acc : List RawActivity) (h : pages page = .rateLimit) :
    fetchAllLoop pages perPage (f + 1) page acc = .error .rateLimit := by
  rw [fetchAllLoop, h]

theorem fetchAllLoop_apiError (pages : Nat → PageResult) (perPage f page : Nat)
    (acc : List RawActivity) (h : pages page = .apiError) :
    fetchAllLoop pages perPage (f + 1) page acc = .ok acc := by
  rw [fetchAllLoop, h]

/-- C5: the labels are NOT one canonical ISO week definition applied
consistently.  For an activity on Monday 2019-12-30, `normalize_activities`
labels it `"2019-W52"` (`strftime("%Y-W%W")`), while the gap-filled week
sequence of `calculate_weekly_stats` labels that same week
`"2019-W01 (Dec 30 - Jan 05)"` (`strftime("%Y-W%V")` plus a date-range
suffix): the two week numbers differ at a year-end boundary, and the two
labels never agree, so the claim fails on this input. -/
theorem c5_week_label_divergence :
    normYearWeek ⟨2019, 12, 30, 0⟩ = WLabel.norm 2019 52 ∧
    rangeLabel (daysFromCivil 2019 12 30) = WLabel.range 2019 1 12 30 1 5 ∧
    normYearWeek ⟨2019, 12, 30, 0⟩ ≠ rangeLabel (daysFromCivil 2019 12 30) :=
  ⟨by decide, by decide, by decide⟩

/-- C6: during `fetch_all_activities` pagination with full pages `1..n-1`,
a `StravaRateLimitError` on page `n` aborts the whole operation and the
accumulated records are discarded, while a non-rate-limit `StravaAPIError`
on page `n` ends pagination early and returns the records of pages `1..n-1`
as a successful (partial) result. -/
theorem c6_pagination_error_policy
    (pA pB : Nat → PageResult) (recs : Nat → List RawActivity)
    (n perPage fuel : Nat) (hn : 1 ≤ n) (hpp : 0 < perPage) (hfuel : n < fuel)
    (hA : ∀ i, 1 ≤ i → i < n → pA i = .ok (recs i) ∧ (recs i).length = perPage)
    (hB : ∀ i, 1 ≤ i → i < n → pB i = .ok (recs i) ∧ (recs i).length = perPage)
    (hArl : pA n = .rateLimit) (hBerr : pB n = .apiError) :
    fetch_all_activities pA perPage fuel = .error .rateLimit ∧
    fetch_all_activities pB perPage fuel =
      .ok (((List.range (n - 1)).map fun j => recs (1 + j)).flatten) := by
  have hrunA := fetchAllLoop_run pA perPage recs hpp (n - 1) 1 fuel []
      (fun i h1 h2 => hA i h1 (by omega)) (by omega)
  have hrunB := fetchAllLoop_run pB perPage recs hpp (n - 1) 1 fuel []
      (fun i h1 h2 => hB i h1 (by omega)) (by omega)
  have h1n : 1 + (n - 1) = n := by omega
  rw [h1n] at hrunA hrunB
  obtain ⟨f2, hf2⟩ : ∃ f2, fuel - (n - 1) = f2 + 1 := ⟨fuel - (n - 1) - 1, by omega⟩
  rw [hf2] at hrunA hrunB
  constructor
  · unfold fetch_all_activities
    rw [hrunA]
    exact fetchAllLoop_rateLimit pA perPage f2 n _ hArl
  · unfold fetch_all_activities
    rw [hrunB]
    rw [fetchAllLoop_apiError pB perPage f2 n _ hBerr]
    rw [List.nil_append]

/-- C6 witness: three pages of size 1 with page 2 failing: the rate-limited
run aborts with the error, the API-error run returns just page 1. -/
theorem c6_witness :
    fetch_all_activities c6PagesA 1 3 = .error .rateLimit ∧
    fetch_all_activities c6PagesB 1 3 =
      .ok (((List.range (2 - 1)).map fun j => c6Recs (1 + j)).flatten) :=
  c6_pagination_error_policy c6PagesA c6PagesB c6Recs 2 1 3
    (by decide) (by decide) (by decide)
    (fun i h1 h2 => by
      have hi : i = 1 := by omega
      subst hi
      exact ⟨rfl, rfl⟩)
    (fun i h1 h2 => by
      have hi : i = 1 := by omega
      subst hi
      exact ⟨rfl, rfl⟩)
    rfl rfl

/-- C7: when a forced refresh hits a `StravaRateLimitError`,
`load_activities` returns the cached table (after signalling a non-fatal
warning) if a cache exists, and halts via `st.stop` without returning data
when no cache exists. -/
theorem c7_rate_limit_fallback (c : Table) :
    load_activities_force (.error .rateLimit) (some c) = .data c true ∧
    load_activities_force (.error .rateLimit) none = .stopped :=
  ⟨rfl, rfl⟩

/-- C7 witness: concrete run with an empty cached table. -/
theorem c7_witness :
    load_activities_force (.error .rateLimit) (some ⟨[], []⟩) = .data ⟨[], []⟩ true ∧
    load_activities_force (.error .rateLimit) none = .stopped :=
  c7_rate_limit_fallback ⟨[], []⟩

/-- C3 counterexample: a batch whose single record has neither
`start_date_local` nor `start_date` does NOT fail: `pd.to_datetime(None)`
yields `NaT` and `normalize_activities` returns a one-row table. -/
theorem c3_counterexample :
    chosenDate rawNone = none ∧
    ∃ t, normalize_activities [rawNone] = .ok t ∧ t.rows.length = 1 :=
  ⟨rfl, ⟨_, rfl, rfl⟩⟩

/-- C3 (amended): a record whose selected date value is an unparseable string
makes `normalize_activities` fail the whole batch (with the untyped parse
error `pd.to_datetime` raises; the code has no dedicated `NormalizationError`
type); but a record where neither date key is present does not fail the
batch: it produces a row whose timestamp is missing (`NaT`). -/
theorem c3_amended (rawU : List RawActivity) (aU : RawActivity) (haU : aU ∈ rawU)
    (hU : chosenDate aU = some RawDateVal.unparsable)
    (rawN : List RawActivity) (aN : RawActivity) (haN : aN ∈ rawN)
    (hN : chosenDate aN = none) (t : Table)
    (hok : normalize_activities rawN = .ok t) :
    (∃ e, normalize_activities rawU = .error e) ∧
    (∃ r ∈ t.rows, r.datetime = none) := by
  constructor
  · have herr := toRow_unparsable_date aU hU
    rcases exMap_error_of_mem toRow rawU aU haU _ herr with ⟨e2, he2⟩
    have h0 : rawU ≠ [] := by
      intro h
      subst h
      exact absurd haU (List.not_mem_nil aU)
    refine ⟨e2, ?_⟩
    unfold normalize_activities
    rw [if_neg h0, he2]
  · have h0 : rawN ≠ [] := by
      intro h
      subst h
      exact absurd haN (List.not_mem_nil aN)
    rcases normalize_ok_elim rawN h0 t hok with ⟨rows, hm, ht⟩
    rcases toRow_of_no_date aN hN with ⟨r0, hr0, hdt⟩
    rcases exMap_ok_image toRow rawN rows hm aN haN with ⟨b, hb, hfb⟩
    have hbr : r0 = b := by
      rw [hr0] at hfb
      exact Except.ok.inj hfb
    refine ⟨b, ?_, hbr ▸ hdt⟩
    rw [ht]
    exact (List.perm_insertionSort rowDescLE rows).mem_iff.mpr hb

/-- C3 witness: concrete unparseable batch fails; concrete no-date batch
succeeds with a `NaT` row. -/
theorem c3_witness :
    (∃ e, normalize_activities [rawUnparsable] = .error e) ∧
    (∃ t, normalize_activities [rawNone] = .ok t ∧ ∃ r ∈ t.rows, r.datetime = none) := by
  obtain ⟨t, ht⟩ : ∃ t, normalize_activities [rawNone] = .ok t := ⟨_, rfl⟩
  have h := c3_amended [rawUnparsable] rawUnparsable (List.mem_singleton.mpr rfl) rfl
    [rawNone] rawNone (List.mem_singleton.mpr rfl) rfl t ht
  exact ⟨h.1, ⟨t, ht, h.2⟩⟩

/-- C4 counterexample: a record with a negative raw `distance` flows through
`normalize_activities` unchecked, so the output contains a negative
`distance_km`, contradicting the unconditional non-negativity claim. -/
theorem c4_counterexample :
    ∃ t, normalize_activities [rawNegative] = .ok t ∧
      ∃ r ∈ t.rows, r.distance_km < 0 := by
  have heval : normalize_activities [rawNegative] = .ok ⟨normalizeCols, [c4NegRow]⟩ := rfl
  refine ⟨_, heval, c4NegRow, List.mem_singleton.mpr rfl, ?_⟩
  show (-1000 : ℚ) / 1000 < 0
  norm_num

/-- C4 (amended): provided every present raw `distance`, `moving_time` and
`total_elevation_gain` is non-negative, the table `normalize_activities`
returns has one row per input record, is sorted descending by the parsed
timestamp (`NaT` rows last), and all distance/duration/elevation values are
non-negative; the empty batch yields the empty frame without error. -/
theorem c4_amended (raw : List RawActivity) (t : Table)
    (hnn : ∀ a ∈ raw, 0 ≤ a.distance.getD 0 ∧ 0 ≤ a.moving_time.getD 0 ∧
      0 ≤ a.total_elevation_gain.getD 0)
    (hok : normalize_activities raw = .ok t) :
    t.rows.length = raw.length ∧
    List.Sorted rowDescLE t.rows ∧
    (∀ r ∈ t.rows, 0 ≤ r.distance_km ∧ 0 ≤ r.duration_min ∧ 0 ≤ r.elevation_m) ∧
    normalize_activities [] = .ok ⟨[], []⟩ := by
  by_cases h0 : raw = []
  · subst h0
    have ht : t = ⟨[], []⟩ := by
      unfold normalize_activities at hok
      rw [if_pos rfl] at hok
      exact (Except.ok.inj hok).symm
    subst ht
    refine ⟨rfl, List.sorted_nil, ?_, rfl⟩
    intro r hr
    exact absurd hr (List.not_mem_nil r)
  · rcases normalize_ok_elim raw h0 t hok with ⟨rows, hm, ht⟩
    subst ht
    refine ⟨?_, List.sorted_insertionSort rowDescLE rows, ?_, rfl⟩
    · rw [show (Table.mk normalizeCols (List.insertionSort rowDescLE rows)).rows =
          List.insertionSort rowDescLE rows from rfl]
      rw [List.length_insertionSort]
      exact exMap_ok_length toRow raw rows hm
    · intro r hr
      have hr2 : r ∈ rows := (List.perm_insertionSort rowDescLE rows).mem_iff.mp hr
      rcases exMap_ok_sources toRow raw rows hm r hr2 with ⟨a, ha, hfa⟩
      rcases toRow_ok_fields a r hfa with ⟨hd, hdur, hel⟩
      rcases hnn a ha with ⟨h1, h2, h3⟩
      refine ⟨?_, ?_, ?_⟩
      · rw [hd]; exact div_nonneg h1 (by norm_num)
      · rw [hdur]; exact div_nonneg h2 (by norm_num)
      · rw [hel]; exact h3

/-- C4 witness: a concrete well-formed one-record batch. -/
theorem c4_witness :
    ∃ t, normalize_activities [rawGood] = .ok t ∧
      (t.rows.length = 1 ∧ List.Sorted rowDescLE t.rows ∧
       (∀ r ∈ t.rows, 0 ≤ r.distance_km ∧ 0 ≤ r.duration_min ∧ 0 ≤ r.elevation_m) ∧
       normalize_activities [] = .ok ⟨[], []⟩) := by
  obtain ⟨t, ht⟩ : ∃ t, normalize_activities [rawGood] = .ok t := ⟨_, rfl⟩
  have h := c4_amended [rawGood] t
    (by
      intro a ha
      rw [List.mem_singleton] at ha
      subst ha
      refine ⟨?_, ?_, ?_⟩ <;> norm_num [rawGood, Option.getD])
    ht
  exact ⟨t, ht, h.1, h.2.1, h.2.2.1, h.2.2.2⟩

/-- C10: `filter_activities` with an absent (`None`) or empty sport list
returns the frame unfiltered; with a non-empty list it keeps exactly the
rows whose sport is a member of the list. -/
theorem c10_filter_semantics (df : Table) (l : List String)
    (hdt : "datetime" ∈ df.cols) (hsp : "sport" ∈ df.cols) (hl : l ≠ []) :
    filter_activities df none none none = df ∧
    filter_activities df none none (some []) = df ∧
    (filter_activities df none none (some l)).cols = df.cols ∧
    (filter_activities df none none (some l)).rows =
      df.rows.filter (fun r => r.sport ∈ l) := by
  by_cases h0 : df.rows = []
  · refine ⟨?_, ?_, ?_, ?_⟩ <;> simp [filter_activities, h0]
  · have hdt2 : ¬ "datetime" ∉ df.cols := not_not_intro hdt
    refine ⟨?_, ?_, ?_, ?_⟩
    · unfold filter_activities
      rw [if_neg h0, if_neg hdt2]
    · unfold filter_activities
      rw [if_neg h0, if_neg hdt2]
      rfl
    · unfold filter_activities
      rw [if_neg h0, if_neg hdt2]
    · unfold filter_activities
      rw [if_neg h0, if_neg hdt2]
      show (if l = [] then df.rows
        else if "sport" ∈ df.cols then df.rows.filter (fun r => r.sport ∈ l)
        else df.rows) = df.rows.filter (fun r => r.sport ∈ l)
      rw [if_neg hl, if_pos hsp]

/-- C8 counterexample: with yearly distance totals `[0, 100]`, the
`pct_change * 100` column is `[NaN, +inf]`: for a zero previous year the
delta is positive infinity, not NaN/undefined as the claim states. -/
theorem c8_counterexample :
    (calculate_yoy_change c8YearlyZero).dist_yoy = [FV.nan, FV.inf] ∧
    FV.inf ≠ FV.nan := by
  constructor
  · norm_num [calculate_yoy_change, c8YearlyZero, pctChangeCol, pctChange100,
      List.range_succ]
  · decide

/-- C8 (amended): `calculate_yoy_change` computes, per metric,
`(current - previous) / previous * 100` whenever the previous value is
non-zero; the first row's delta is NaN (distinct from zero); and when the
previous value is zero the delta is not a finite number — `+inf` for a
positive current value, `-inf` for a negative one, and NaN only when the
current value is also zero — in every case distinct from a zero delta. -/
theorem c8_amended (l : List YearRow) (xs : List ℚ) (i : Nat) (hxs : i < xs.length) :
    ((calculate_yoy_change l).dist_yoy = pctChangeCol (l.map (·.total_distance_km)) ∧
     (calculate_yoy_change l).elev_yoy = pctChangeCol (l.map (·.total_elevation_m)) ∧
     (calculate_yoy_change l).dur_yoy = pctChangeCol (l.map (·.total_duration_min)) ∧
     (calculate_yoy_change l).count_yoy = pctChangeCol (l.map (·.activity_count))) ∧
    (pctChangeCol xs).length = xs.length ∧
    FV.nan ≠ FV.num 0 ∧
    (i = 0 → (pctChangeCol xs).getD i FV.nan = FV.nan) ∧
    (0 < i →
      (xs.getD (i - 1) 0 ≠ 0 →
        (pctChangeCol xs).getD i FV.nan =
          FV.num ((xs.getD i 0 - xs.getD (i - 1) 0) / xs.getD (i - 1) 0 * 100)) ∧
      (xs.getD (i - 1) 0 = 0 →
        (pctChangeCol xs).getD i FV.nan ≠ FV.num 0 ∧
        (0 < xs.getD i 0 → (pctChangeCol xs).getD i FV.nan = FV.inf) ∧
        (xs.getD i 0 < 0 → (pctChangeCol xs).getD i FV.nan = FV.ninf) ∧
        (xs.getD i 0 = 0 → (pctChangeCol xs).getD i FV.nan = FV.nan))) := by
  have hget : (pctChangeCol xs).getD i FV.nan =
      if i = 0 then FV.nan else pctChange100 (xs.getD (i - 1) 0) (xs.getD i 0) := by
    unfold pctChangeCol
    rw [List.getD_eq_getElem?_getD, List.getElem?_map, List.getElem?_range hxs]
    rfl
  refine ⟨⟨rfl, rfl, rfl, rfl⟩, by simp [pctChangeCol], by decide, ?_, ?_⟩
  · intro h0
    rw [hget, if_pos h0]
  · intro hpos
    have hne : i ≠ 0 := by omega
    rw [hget, if_neg hne]
    constructor
    · intro hprev
      unfold pctChange100
      rw [if_neg hprev]
    · intro hprev
      unfold pctChange100
      rw [if_pos hprev]
      refine ⟨?_, ?_, ?_, ?_⟩
      · split
        · simp
        · split <;> simp
      · intro hcur
        rw [hprev, sub_zero, if_pos hcur]
      · intro hcur
        rw [hprev, sub_zero, if_neg (not_lt.mpr (le_of_lt hcur)), if_pos hcur]
      · intro hcur
        rw [hprev, hcur, sub_zero, if_neg (lt_irrefl 0), if_neg (lt_irrefl 0)]

/-- C8 witness: yearly totals `[100, 150]` at row 1 give a finite delta of
50 percent for each metric column. -/
theorem c8_witness :
    ((calculate_yoy_change c8Yearly).dist_yoy =
        pctChangeCol (c8Yearly.map (·.total_distance_km)) ∧
     (calculate_yoy_change c8Yearly).elev_yoy =
        pctChangeCol (c8Yearly.map (·.total_elevation_m)) ∧
     (calculate_yoy_change c8Yearly).dur_yoy =
        pctChangeCol (c8Yearly.map (·.total_duration_min)) ∧
     (calculate_yoy_change c8Yearly).count_yoy =
        pctChangeCol (c8Yearly.map (·.activity_count))) ∧
    (pctChangeCol [100, 150]).length = ([100, 150] : List ℚ).length ∧
    FV.nan ≠ FV.num 0 ∧
    (1 = 0 → (pctChangeCol [100, 150]).getD 1 FV.nan = FV.nan) ∧
    (0 < 1 →
      (([100, 150] : List ℚ).getD (1 - 1) 0 ≠ 0 →
        (pctChangeCol [100, 150]).getD 1 FV.nan =
          FV.num ((([100, 150] : List ℚ).getD 1 0 - ([100, 150] : List ℚ).getD (1 - 1) 0) /
            ([100, 150] : List ℚ).getD (1 - 1) 0 * 100)) ∧
      (([100, 150] : List ℚ).getD (1 - 1) 0 = 0 →
        (pctChangeCol [100, 150]).getD 1 FV.nan ≠ FV.num 0 ∧
        (0 < ([100, 150] : List ℚ).getD 1 0 →
          (pctChangeCol [100, 150]).getD 1 FV.nan = FV.inf) ∧
        (([100, 150] : List ℚ).getD 1 0 < 0 →
          (pctChangeCol [100, 150]).getD 1 FV.nan = FV.ninf) ∧
        (([100, 150] : List ℚ).getD 1 0 = 0 →
          (pctChangeCol [100, 150]).getD 1 FV.nan = FV.nan))) :=
  c8_amended c8Yearly [100, 150] 1 (by decide)

/-- C9 counterexample: the rolling 4-week average of the distance sequence
`[10, 0, 0, 0, 20]` does not end in `7.5`: the trailing 4-sample mean at the
last position is `(0 + 0 + 0 + 20) / 4 = 5`. -/
theorem c9_counterexample :
    ¬ (add_rolling_averages c9Buckets [4]).distAvg =
        [(4, [10, 5, 10 / 3, 5 / 2, 15 / 2])] := by
  have h : (add_rolling_averages c9Buckets [4]).distAvg =
      [(4, [10, 5, 10 / 3, 5 / 2, 5])] := by
    norm_num [add_rolling_averages, c9Buckets, rollingMeanList, rollingSlice,
      List.range_succ]
  rw [h]
  intro hc
  simp only [List.cons.injEq, Prod.mk.injEq, and_true] at hc
  have h5 : (5 : ℚ) = 15 / 2 := hc.2.2.2.2.2
  norm_num at h5

/-- C9 (amended): `add_rolling_averages` with window 4 computes the trailing
simple moving average with a minimum of one sample (no undefined values at
the start): on the weekly distance sequence `[10, 0, 0, 0, 20]` it yields
`[10, 5, 10/3, 5/2, 5]` — the cumulative mean while fewer than 4 samples
are available, and the 4-sample trailing mean (here `20/4 = 5`) thereafter. -/
theorem c9_rolling_average :
    (add_rolling_averages c9Buckets [4]).distAvg =
      [(4, [10, 5, 10 / 3, 5 / 2, 5])] := by
  norm_num [add_rolling_averages, c9Buckets, rollingMeanList, rollingSlice,
    List.range_succ]

/-- C1: on every non-empty activity table carrying the columns
`calculate_weekly_stats` reads, whose `week_start` anchors are Mondays
(day index divisible by 7) and whose `year_week` labels are normalizer
labels, the aggregation succeeds and returns exactly one bucket per
calendar week between the minimum and maximum observed week start
inclusive (the week starts are `min, min+7, ..., max`, and a week start
appears iff it is a Monday in `[min, max]`), sorted strictly
chronologically, and every bucket for a week containing no source
activities has zero total distance, elevation and duration and an
activity count of zero. -/
theorem c1_weekly_gap_fill (df : Table) (h0 : df.rows ≠ [])
    (h1 : "year_week" ∈ df.cols) (h2 : ∀ c ∈ weeklyAggCols, c ∈ df.cols)
    (h3 : ∀ r ∈ df.rows, r.week_start % 7 = 0)
    (h4 : ∀ r ∈ df.rows, ∀ lb, r.year_week = some lb → ∃ y w, lb = WLabel.norm y w) :
    calculate_weekly_stats df = .ok (weeklyOut df) ∧
    (weeklyOut df).map (·.week_start_date) =
      (List.range ((listMax (df.rows.map (·.week_start)) -
          listMin (df.rows.map (·.week_start))) / 7 + 1)).map
        (fun i => listMin (df.rows.map (·.week_start)) + 7 * i) ∧
    (weeklyOut df).Pairwise (fun a b => a.week_start_date < b.week_start_date) ∧
    (∀ w : Nat, w ∈ (weeklyOut df).map (·.week_start_date) ↔
      (listMin (df.rows.map (·.week_start)) ≤ w ∧
       w ≤ listMax (df.rows.map (·.week_start)) ∧ w % 7 = 0)) ∧
    (∀ b ∈ weeklyOut df, (∀ r ∈ df.rows, r.week_start ≠ b.week_start_date) →
      b.total_distance_km = 0 ∧ b.total_elevation_m = 0 ∧
      b.total_duration_min = 0 ∧ b.activity_count = 0) := by
  have hwsne : df.rows.map (·.week_start) ≠ [] := by
    intro hx
    exact h0 (List.map_eq_nil_iff.mp hx)
  have hminmem := listMin_mem _ hwsne
  have hmaxmem := listMax_mem _ hwsne
  have hmin7 : listMin (df.rows.map (·.week_start)) % 7 = 0 := by
    rcases List.mem_map.mp hminmem with ⟨r, hr, hrw⟩
    rw [← hrw]
    exact h3 r hr
  have hmax7 : listMax (df.rows.map (·.week_start)) % 7 = 0 := by
    rcases List.mem_map.mp hmaxmem with ⟨r, hr, hrw⟩
    rw [← hrw]
    exact h3 r hr
  have hminmax := listMin_le_listMax _ hwsne
  have hrange := dateRangeWMON_aligned _ _ hmin7 hminmax
  have hfind := weeklyAgg_find_range_none df.rows h4
  have hzero : ∀ mon, mergedBucket (weeklyAgg df.rows) mon =
      { year_week := rangeLabel mon, week_start_date := mon
        total_distance_km := 0, total_elevation_m := 0
        total_duration_min := 0, activity_count := 0 } :=
    fun mon => mergedBucket_of_find_none _ _ (hfind mon)
  have hmapws : (weeklyOut df).map (·.week_start_date) =
      dateRangeWMON (listMin (df.rows.map (·.week_start)))
        (listMax (df.rows.map (·.week_start))) := by
    unfold weeklyOut
    rw [List.map_map]
    have hcongr : ∀ mon ∈ dateRangeWMON (listMin (df.rows.map (·.week_start)))
        (listMax (df.rows.map (·.week_start))),
        ((fun x => x.week_start_date) ∘ mergedBucket (weeklyAgg df.rows)) mon = id mon :=
      fun mon _ => mergedBucket_week_start (weeklyAgg df.rows) mon
    rw [List.map_congr_left hcongr, List.map_id]
  have hmon : (dateRangeWMON (listMin (df.rows.map (·.week_start)))
      (listMax (df.rows.map (·.week_start)))).Pairwise (· < ·) := by
    rw [hrange]
    refine (List.pairwise_map).mpr ?_
    exact (List.pairwise_lt_range _).imp (fun hij => by omega)
  have hpair : (weeklyOut df).Pairwise
      (fun a b => a.week_start_date < b.week_start_date) := by
    unfold weeklyOut
    refine (List.pairwise_map).mpr ?_
    refine hmon.imp ?_
    intro m1 m2 h12
    rw [mergedBucket_week_start, mergedBucket_week_start]
    exact h12
  have hsorted : List.Sorted bucketLE (weeklyOut df) :=
    hpair.imp (fun h => Nat.le_of_lt h)
  have hcalc : calculate_weekly_stats df =
      .ok (List.insertionSort bucketLE (weeklyOut df)) := by
    simp only [calculate_weekly_stats]
    rw [if_neg h0, if_neg (not_not_intro h1)]
    rw [if_neg (not_not_intro (List.filter_eq_nil_iff.mpr (fun c hc => by
      simp only [decide_eq_true_eq]
      exact not_not_intro (h2 c hc))))]
    rfl
  have h1eq : calculate_weekly_stats df = .ok (weeklyOut df) := by
    rw [hcalc, List.Sorted.insertionSort_eq hsorted]
  refine ⟨h1eq, by rw [hmapws, hrange], hpair, ?_, ?_⟩
  · intro w
    rw [hmapws, hrange]
    constructor
    · intro hw
      rcases List.mem_map.mp hw with ⟨i, hi, rfl⟩
      have hi2 := List.mem_range.mp hi
      exact ⟨by omega, by omega, by omega⟩
    · rintro ⟨hw1, hw2, hw3⟩
      refine List.mem_map.mpr
        ⟨(w - listMin (df.rows.map (·.week_start))) / 7,
         List.mem_range.mpr (by omega), by omega⟩
  · intro b hb hnr
    unfold weeklyOut at hb
    rcases List.mem_map.mp hb with ⟨mon, hmon2, rfl⟩
    rw [hzero mon]
    exact ⟨rfl, rfl, rfl, rfl⟩

/-- C1 witness: a concrete two-activity table whose week starts are the
Mondays 707 and 721 yields three chronological buckets (707, 714, 721)
with the gap week zero-filled. -/
theorem c1_witness :
    calculate_weekly_stats c1Df = .ok (weeklyOut c1Df) ∧
    (weeklyOut c1Df).map (·.week_start_date) =
      (List.range ((listMax (c1Df.rows.map (·.week_start)) -
          listMin (c1Df.rows.map (·.week_start))) / 7 + 1)).map
        (fun i => listMin (c1Df.rows.map (·.week_start)) + 7 * i) ∧
    (weeklyOut c1Df).Pairwise (fun a b => a.week_start_date < b.week_start_date) ∧
    (∀ w : Nat, w ∈ (weeklyOut c1Df).map (·.week_start_date) ↔
      (listMin (c1Df.rows.map (·.week_start)) ≤ w ∧
       w ≤ listMax (c1Df.rows.map (·.week_start)) ∧ w % 7 = 0)) ∧
    (∀ b ∈ weeklyOut c1Df, (∀ r ∈ c1Df.rows, r.week_start ≠ b.week_start_date) →
      b.total_distance_km = 0 ∧ b.total_elevation_m = 0 ∧
      b.total_duration_min = 0 ∧ b.activity_count = 0) :=
  c1_weekly_gap_fill c1Df (by decide) (by decide) (by decide) (by decide)
    (fun r hr lb hlb => by
      simp only [c1Df] at hr
      rcases List.mem_cons.mp hr with rfl | hr2
      · exact ⟨2, 44, (Option.some.inj hlb).symm⟩
      · rcases List.mem_singleton.mp hr2 with rfl
        exact ⟨2, 42, (Option.some.inj hlb).symm⟩)

/-- Helper: on any non-empty frame whose columns are exactly
`normalizeCols`, the aggregation of `calculate_weekly_stats` raises
`KeyError` for the missing `week_start` column. -/
theorem weekly_on_normalizeCols (rows : List Activity) (hne : rows ≠ []) :
    calculate_weekly_stats ⟨normalizeCols, rows⟩ = .error (.keyError ["week_start"]) := by
  simp only [calculate_weekly_stats]
  rw [if_neg hne]
  rw [if_neg (by decide : ¬ "year_week" ∉ normalizeCols)]
  rw [if_pos (by decide : (weeklyAggCols.filter fun c => c ∉ normalizeCols) ≠ [])]
  rfl

/-- C2: the columns of the frame built by `normalize_activities` are exactly
the eleven per-record fields plus `year`, `iso_week`, `year_week` and
`month` — no `week_start` — and therefore `calculate_weekly_stats`, whose
aggregation dict reads a `week_start` column, raises a `KeyError` instead of
returning buckets, for every non-empty normalized table. -/
theorem c2_week_start_key_error (raw : List RawActivity) (h0 : raw ≠ []) (t : Table)
    (h : normalize_activities raw = .ok t) :
    t.cols = normalizeCols ∧ "week_start" ∉ t.cols ∧
    calculate_weekly_stats t = .error (.keyError ["week_start"]) := by
  rcases normalize_ok_elim raw h0 t h with ⟨rows, hm, ht⟩
  subst ht
  have hlen : rows.length = raw.length := exMap_ok_length toRow raw rows hm
  have hrne : List.insertionSort rowDescLE rows ≠ [] := by
    intro hx
    have hlen2 := List.length_insertionSort rowDescLE rows
    rw [hx] at hlen2
    simp only [List.length_nil] at hlen2
    exact h0 (List.length_eq_zero.mp (by omega))
  refine ⟨rfl, ?_, weekly_on_normalizeCols _ hrne⟩
  show "week_start" ∉ normalizeCols
  decide

/-- C2 witness: a concrete one-record batch gives a frame without
`week_start` on which `calculate_weekly_stats` raises the `KeyError`. -/
theorem c2_witness :
    ∃ t, normalize_activities [rawGood] = .ok t ∧ t.cols = normalizeCols ∧
      "week_start" ∉ t.cols ∧
      calculate_weekly_stats t = .error (.keyError ["week_start"]) := by
  obtain ⟨t, ht⟩ : ∃ t, normalize_activities [rawGood] = .ok t := ⟨_, rfl⟩
  have h := c2_week_start_key_error [rawGood] (by decide) t ht
  exact ⟨t, ht, h.1, h.2.1, h.2.2⟩

/-- C10 witness: concrete table with one run and one ride, filtered to runs. -/
theorem c10_witness :
    filter_activities c10Df none none none = c10Df ∧
    filter_activities c10Df none none (some []) = c10Df ∧
    (filter_activities c10Df none none (some ["Run"])).cols = c10Df.cols ∧
    (filter_activities c10Df none none (some ["Run"])).rows =
      c10Df.rows.filter (fun r => r.sport ∈ ["Run"]) :=
  c10_filter_semantics c10Df ["Run"] (by decide) (by decide) (by decide)

end EM
